import Mathlib

/-!
# Scalar quantities on surface meshes

A shallow embedding of `src/surface_scalar_quantity.cpp`: the base class
`SurfaceScalarQuantity` and its four element bindings (vertex, face, edge,
halfedge), followed by the properties checked against it.

Conventions of the embedding.

* A finite `float` or `double` is the rational number it stands for, and the
  vectors of values hold finite numbers.  Copying, negation, absolute value,
  maximum and comparison are exact.  Where the program adds or divides
  `double`s, or stores a `double` in a `float`, the result is rounded to the
  nearest number of the format, ties to even, and may be an infinity; such a
  result is a `FloatNum`.  A result that is not a number (the quotient
  `0.0 / 0.0`, an unassigned component) is `none`.
* `size_t` indices are natural numbers.  `std::vector` is `List`, and a read
  `xs[i]` is the fallible `readAt xs i`: outside the vector the behaviour of the
  program is undefined, which is the result `Fault.undefinedBehaviour`.
* A member function is a function from the object (and whatever else it
  touches) to the updated object.  Calls into ImGui are inputs of the frame.
  A C++ exception that leaves a function which has already changed the state
  is an error that carries the state as it is at the throw.
-/

namespace polyscope

/-! ## Data model -/

/-- Modelled from the spec: the enum `DataType` (declared in a header that is
not among the sources), with its three scaling policies. -/
inductive DataType where
  | STANDARD
  | SYMMETRIC
  | MAGNITUDE
  deriving DecidableEq, Repr

/-- Modelled from the spec: what `polyscope::warning` and `polyscope::error`
(defined outside the sources) leave behind.  Both are reported to the user and
return to the caller; the report is kept in a log. -/
inductive Message where
  | warning (text : String)
  | error (text : String)
  deriving DecidableEq, Repr

/-- Ways in which a run of the program does not produce a result. -/
inductive Fault where
  /-- a read outside a vector, or of a variable that was never assigned -/
  | undefinedBehaviour
  /-- a C++ exception, `throw std::runtime_error(what)` -/
  | exception (what : String)
  deriving DecidableEq, Repr

/-- The read `xs[i]` of a `std::vector<double>`. -/
def readAt (xs : List ℚ) (i : Nat) : Except Fault ℚ :=
  match xs[i]? with
  | some v => pure v
  | none => throw Fault.undefinedBehaviour

/-- The read of a local `double` that was declared without an initialiser. -/
def readLocal (c : Option ℚ) : Except Fault ℚ :=
  match c with
  | some v => pure v
  | none => throw Fault.undefinedBehaviour

/-- Modelled from the spec: the histogram object `hist` (class defined outside
the sources).  It keeps what the quantity hands to it: the colormap of
`updateColormap`, the two vectors of `buildHistogram`, and the displayed
sub-range `colormapRangeMin`, `colormapRangeMax`. -/
structure Histogram where
  colormap : Option Int
  vals : List ℚ
  weights : List ℚ
  colormapRangeMin : Option ℚ
  colormapRangeMax : Option ℚ
  deriving DecidableEq, Repr

/-- A histogram nothing has been handed to yet. -/
def Histogram.empty : Histogram :=
  { colormap := none, vals := [], weights := [], colormapRangeMin := none, colormapRangeMax := none }

/-- The call `hist.updateColormap(gl::quantitativeColormaps[i])`. -/
def Histogram.updateColormap (h : Histogram) (i : Int) : Histogram :=
  { h with colormap := some i }

/-- The call `hist.buildHistogram(valsVec, weightsVec)`. -/
def Histogram.buildHistogram (h : Histogram) (valsVec weightsVec : List ℚ) : Histogram :=
  { h with vals := valsVec, weights := weightsVec }

/-- The fields of `SurfaceScalarQuantity` (with `name` and `enabled` of its base
class).  The fields that hold numbers hold them from construction on. -/
structure SurfaceScalarQuantity where
  name : String
  definedOn : String
  dataType : DataType
  iColorMap : Int
  dataRangeLow : ℚ
  dataRangeHigh : ℚ
  vizRangeLow : ℚ
  vizRangeHigh : ℚ
  enabled : Bool
  hist : Histogram
  deriving DecidableEq, Repr

/-- The colormap chosen by the constructor of the base class (lines 19-29):
0 (viridis), 1 (coolwarm), 2 (blues). -/
def defaultColorMap : DataType → Int
  | DataType.STANDARD => 0
  | DataType.SYMMETRIC => 1
  | DataType.MAGNITUDE => 2

namespace SurfaceScalarQuantity

/-- `SurfaceScalarQuantity::resetVizRange` (lines 45-61). -/
def resetVizRange (q : SurfaceScalarQuantity) : SurfaceScalarQuantity :=
  match q.dataType with
  | DataType.STANDARD =>
      { q with vizRangeLow := q.dataRangeLow, vizRangeHigh := q.dataRangeHigh }
  | DataType.SYMMETRIC =>
      let absRange := max |q.dataRangeLow| |q.dataRangeHigh|
      { q with vizRangeLow := -absRange, vizRangeHigh := absRange }
  | DataType.MAGNITUDE =>
      { q with vizRangeLow := 0, vizRangeHigh := q.dataRangeHigh }

/-- `SurfaceScalarQuantity::writeToFile` (lines 34-36): one warning, nothing
else.  The log of reported messages is passed through. -/
def writeToFile (q : SurfaceScalarQuantity) (_filename : String) (log : List Message) :
    SurfaceScalarQuantity × List Message :=
  (q, log ++ [Message.warning "Writing to file not yet implemented for this datatype"])

end SurfaceScalarQuantity

/-! ## The parent surface -/

/-- Modelled from the spec: the reserved sentinel `INVALID_IND` that marks a
missing edge of a triangulated face (constant defined outside the sources); the
largest `size_t`. -/
def INVALID_IND : Nat := 2 ^ 64 - 1

/-- Modelled from the spec: one face of the triangulation (type declared outside
the sources): three vertex indices, three edge slots, and the index of the
original face. -/
structure TriangulationFace where
  vertexInds : Fin 3 → Nat
  edgeInds : Fin 3 → Nat
  faceInd : Nat

/-- Modelled from the spec: the parts of the parent `SurfaceMesh` (class defined
outside the sources) that the quantities read.  `faces` lists, for every face
of `mesh->faces()`, the halfedges that `adjacentHalfedges()` enumerates, and
`next` is `he.next()`. -/
structure SurfaceMesh where
  nVertices : Nat
  nFaces : Nat
  nEdges : Nat
  nHalfedges : Nat
  vertexAreas : List ℚ
  faceAreas : List ℚ
  edgeLengths : List ℚ
  triangulation : List TriangulationFace
  faces : List (List Nat)
  next : Nat → Nat

/-- What `fillColorBuffers` stores in the program: the attribute buffer and the
index of the colormap whose texture is bound. -/
structure GLProgram (β : Type) where
  a_colorval : List β
  t_colormap : Int

/-! ## Construction -/

/-- The loop shared by the four constructors (lines 148-151, 233-236, 292-295,
376-379): for `i` from `0` to `n - 1`, push `values[i]` and `weights[i]`. -/
def collectLoop (n : Nat) (values weights : List ℚ) : Except Fault (List ℚ × List ℚ) :=
  (List.range n).foldlM
    (fun (acc : List ℚ × List ℚ) (i : Nat) => do
      let v ← readAt values i
      let w ← readAt weights i
      pure (acc.1 ++ [v], acc.2 ++ [w]))
    ([], [])

/-- The constructor of the base class followed by the last four statements of
every derived constructor: default colormap, `hist.updateColormap`,
`hist.buildHistogram`, `robustMinMax(valsVec, 1e-5)` and `resetVizRange()`.
`robustMinMax` is defined outside the sources and is a parameter.  The two
`vizRange` fields are declared without a value; `resetVizRange` assigns both on
every branch, so the `0` written here is never observed.  Modelled from the
spec: a new quantity is Disabled. -/
def initScalarQuantity (robustMinMax : List ℚ → ℚ → ℚ × ℚ) (name definedOn : String)
    (dataType : DataType) (valsVec weightsVec : List ℚ) : SurfaceScalarQuantity :=
  let iColorMap := defaultColorMap dataType
  let hist := (Histogram.empty.updateColormap iColorMap).buildHistogram valsVec weightsVec
  let range := robustMinMax valsVec (1 / 100000)
  SurfaceScalarQuantity.resetVizRange
    { name := name, definedOn := definedOn, dataType := dataType, iColorMap := iColorMap,
      dataRangeLow := range.1, dataRangeHigh := range.2, vizRangeLow := 0, vizRangeHigh := 0,
      enabled := false, hist := hist }

/-- The class `SurfaceScalarVertexQuantity`: the base and the member `values`. -/
structure SurfaceScalarVertexQuantity extends SurfaceScalarQuantity where
  values : List ℚ

/-- The class `SurfaceScalarFaceQuantity`. -/
structure SurfaceScalarFaceQuantity extends SurfaceScalarQuantity where
  values : List ℚ

/-- The class `SurfaceScalarEdgeQuantity`. -/
structure SurfaceScalarEdgeQuantity extends SurfaceScalarQuantity where
  values : List ℚ

/-- The class `SurfaceScalarHalfedgeQuantity`. -/
structure SurfaceScalarHalfedgeQuantity extends SurfaceScalarQuantity where
  values : List ℚ

/-- `SurfaceScalarVertexQuantity::SurfaceScalarVertexQuantity` (lines 140-158).
The member is initialised by `values(std::move(values_))`. -/
def SurfaceScalarVertexQuantity.construct (robustMinMax : List ℚ → ℚ → ℚ × ℚ) (name : String)
    (values_ : List ℚ) (mesh_ : SurfaceMesh) (dataType_ : DataType) :
    Except Fault SurfaceScalarVertexQuantity := do
  let values := values_
  let vecs ← collectLoop mesh_.nVertices values mesh_.vertexAreas
  pure { toSurfaceScalarQuantity :=
           initScalarQuantity robustMinMax name "vertex" dataType_ vecs.1 vecs.2,
         values := values }

/-- `SurfaceScalarFaceQuantity::SurfaceScalarFaceQuantity` (lines 225-243). -/
def SurfaceScalarFaceQuantity.construct (robustMinMax : List ℚ → ℚ → ℚ × ℚ) (name : String)
    (values_ : List ℚ) (mesh_ : SurfaceMesh) (dataType_ : DataType) :
    Except Fault SurfaceScalarFaceQuantity := do
  let values := values_
  let vecs ← collectLoop mesh_.nFaces values mesh_.faceAreas
  pure { toSurfaceScalarQuantity :=
           initScalarQuantity robustMinMax name "face" dataType_ vecs.1 vecs.2,
         values := values }

/-- `SurfaceScalarEdgeQuantity::SurfaceScalarEdgeQuantity` (lines 284-302). -/
def SurfaceScalarEdgeQuantity.construct (robustMinMax : List ℚ → ℚ → ℚ × ℚ) (name : String)
    (values_ : List ℚ) (mesh_ : SurfaceMesh) (dataType_ : DataType) :
    Except Fault SurfaceScalarEdgeQuantity := do
  let values := values_
  let vecs ← collectLoop mesh_.nEdges values mesh_.edgeLengths
  pure { toSurfaceScalarQuantity :=
           initScalarQuantity robustMinMax name "edge" dataType_ vecs.1 vecs.2,
         values := values }

/-- `SurfaceScalarHalfedgeQuantity::SurfaceScalarHalfedgeQuantity` (lines
368-386).  The initialiser list names the base class only, so the member
`values` is default-constructed, that is empty, and `values_` is not used.  The
loop reads that member and `parent->edgeLengths`, both at the halfedge index. -/
def SurfaceScalarHalfedgeQuantity.construct (robustMinMax : List ℚ → ℚ → ℚ × ℚ) (name : String)
    (_values_ : List ℚ) (mesh_ : SurfaceMesh) (dataType_ : DataType) :
    Except Fault SurfaceScalarHalfedgeQuantity := do
  let values : List ℚ := []
  let vecs ← collectLoop mesh_.nHalfedges values mesh_.edgeLengths
  pure { toSurfaceScalarQuantity :=
           initScalarQuantity robustMinMax name "halfedge" dataType_ vecs.1 vecs.2,
         values := values }

/-! ## Expansion into corner buffers -/

/-- `SurfaceScalarVertexQuantity::fillColorBuffers` (lines 172-186). -/
def SurfaceScalarVertexQuantity.fillColorBuffers (q : SurfaceScalarVertexQuantity)
    (parent : SurfaceMesh) : Except Fault (GLProgram ℚ) := do
  let colorval ← parent.triangulation.foldlM
    (fun (colorval : List ℚ) (face : TriangulationFace) =>
      (List.finRange 3).foldlM
        (fun (colorval : List ℚ) (i : Fin 3) => do
          let vInd := face.vertexInds i
          let v ← readAt q.values vInd
          pure (colorval ++ [v]))
        colorval)
    []
  pure { a_colorval := colorval, t_colormap := q.iColorMap }

/-- `SurfaceScalarFaceQuantity::fillColorBuffers` (lines 256-270). -/
def SurfaceScalarFaceQuantity.fillColorBuffers (q : SurfaceScalarFaceQuantity)
    (parent : SurfaceMesh) : Except Fault (GLProgram ℚ) := do
  let colorval ← parent.triangulation.foldlM
    (fun (colorval : List ℚ) (face : TriangulationFace) =>
      let fInd := face.faceInd
      (List.finRange 3).foldlM
        (fun (colorval : List ℚ) (_i : Fin 3) => do
          let v ← readAt q.values fInd
          pure (colorval ++ [v]))
        colorval)
    []
  pure { a_colorval := colorval, t_colormap := q.iColorMap }

/-- A `float` or `double` that is a number: a finite value or an infinity. -/
inductive FloatNum where
  | finite (q : ℚ)
  | infinite (negative : Bool)
  deriving DecidableEq, Repr

/-- The integer nearest to `x`, the even one of two equally near. -/
def roundHalfEven (x : ℚ) : ℤ :=
  let f := ⌊x⌋
  let r := x - f
  if r < 1 / 2 then f
  else if 1 / 2 < r then f + 1
  else if f % 2 = 0 then f else f + 1

/-- The power `2 ^ e` for an integer exponent. -/
def pow2 (e : ℤ) : ℚ :=
  if 0 ≤ e then ((2 ^ e.toNat : ℕ) : ℚ) else 1 / ((2 ^ (-e).toNat : ℕ) : ℚ)

/-- The number of halvings that bring `n` below 2, with at most `fuel` of them. -/
def log2Fuel : Nat → Nat → Nat
  | 0, _ => 0
  | fuel + 1, n => if n < 2 then 0 else log2Fuel fuel (n / 2) + 1

/-- The binary logarithm of a natural number, rounded down (`0` at `0`). -/
def natLog2 (n : Nat) : Nat := log2Fuel n n

/-- The binary logarithm of a positive rational, rounded down: the exponent `e`
with `2 ^ e ≤ a < 2 ^ (e + 1)`. -/
def floorLog2 (a : ℚ) : ℤ :=
  let e0 : ℤ := (natLog2 a.num.natAbs : ℤ) - (natLog2 a.den : ℤ)
  if pow2 e0 ≤ a then e0 else e0 - 1

/-- IEEE 754 rounding to nearest, ties to even, into the binary format with `p`
significand bits and normal exponents `emin .. emax`: below `2 ^ emin` the
spacing is that of the subnormal numbers, and what rounds to `2 ^ (emax + 1)`
or beyond is an infinity. -/
def roundBinary (p : Nat) (emin emax : ℤ) (x : ℚ) : FloatNum :=
  if x = 0 then FloatNum.finite 0
  else
    let e := max (floorLog2 |x|) emin
    let quantum : ℚ := pow2 (e - ((p : ℤ) - 1))
    let r : ℚ := (roundHalfEven (x / quantum) : ℚ) * quantum
    if pow2 (emax + 1) ≤ |r| then FloatNum.infinite (decide (x < 0))
    else FloatNum.finite r

/-- Rounding to `double` (binary64). -/
def toDouble (x : ℚ) : FloatNum := roundBinary 53 (-1022) 1023 x

/-- Rounding to `float` (binary32). -/
def toFloat (x : ℚ) : FloatNum := roundBinary 24 (-126) 127 x

/-- The sum `a + v` of two `double`s, `v` finite. -/
def addDouble (a : FloatNum) (v : ℚ) : FloatNum :=
  match a with
  | FloatNum.finite q => toDouble (q + v)
  | FloatNum.infinite negative => FloatNum.infinite negative

/-- The quotient `a / b` of two `double`s, `b` finite and not negative zero;
`none` is the NaN of `0.0 / 0.0`. -/
def divDouble (a : FloatNum) (b : ℚ) : Option FloatNum :=
  match a with
  | FloatNum.finite q =>
      if b = 0 then
        if q = 0 then none else some (FloatNum.infinite (decide (q < 0)))
      else some (toDouble (q / b))
  | FloatNum.infinite negative => some (FloatNum.infinite (xor negative (decide (b < 0))))

/-- The conversion of a `double` to `float` that an assignment to a component
of a `glm::vec3` performs. -/
def narrowToFloat : Option FloatNum → Option FloatNum
  | none => none
  | some (FloatNum.infinite negative) => some (FloatNum.infinite negative)
  | some (FloatNum.finite q) => some (toFloat q)

/-- A `glm::vec3`: three `float` components, `none` where there is no number. -/
abbrev Vec3 := Fin 3 → Option FloatNum

/-- The first inner loop of the edge expansion (lines 324-332): the sum
`avgVal` and the count `avgValCount`, both `double`, over the slots that are
not `INVALID_IND`. -/
def edgeAvgLoop (values : List ℚ) (face : TriangulationFace) : Except Fault (FloatNum × ℚ) :=
  (List.finRange 3).foldlM
    (fun (acc : FloatNum × ℚ) (i : Fin 3) =>
      let eInd := face.edgeInds i
      if eInd ≠ INVALID_IND then do
        let v ← readAt values eInd
        pure (addDouble acc.1 v, acc.2 + 1)
      else pure acc)
    (FloatNum.finite 0, 0)

/-- The second inner loop of the edge expansion (lines 336-344), filling the
`float` components of `combinedValues`, which starts without values, from the
`double`s `avgVal` and `values[eInd]`. -/
def edgeCombineLoop (values : List ℚ) (face : TriangulationFace) (avgVal : Option FloatNum) :
    Except Fault Vec3 :=
  (List.finRange 3).foldlM
    (fun (combinedValues : Vec3) (i : Fin 3) =>
      let eInd := face.edgeInds i
      if eInd = INVALID_IND then
        pure (Function.update combinedValues i (narrowToFloat avgVal))
      else do
        let v ← readAt values eInd
        pure (Function.update combinedValues i (narrowToFloat (some (FloatNum.finite v)))))
    (fun _ => none)

/-- The body of the loop over the triangulation in the edge expansion (lines
321-350). -/
def edgeFaceBody (values : List ℚ) (colorval : List Vec3) (face : TriangulationFace) :
    Except Fault (List Vec3) := do
  let sums ← edgeAvgLoop values face
  let avgVal := divDouble sums.1 sums.2
  let combinedValues ← edgeCombineLoop values face avgVal
  pure ((List.finRange 3).foldl (fun (colorval : List Vec3) (_i : Fin 3) =>
    colorval ++ [combinedValues]) colorval)

/-- `SurfaceScalarEdgeQuantity::fillColorBuffers` (lines 315-355). -/
def SurfaceScalarEdgeQuantity.fillColorBuffers (q : SurfaceScalarEdgeQuantity)
    (parent : SurfaceMesh) : Except Fault (GLProgram Vec3) := do
  let colorval ← parent.triangulation.foldlM (edgeFaceBody q.values) []
  pure { a_colorval := colorval, t_colormap := q.iColorMap }

/-- The `Vector3` pushed by the halfedge expansion. -/
structure Vector3 where
  x : ℚ
  y : ℚ
  z : ℚ
  deriving DecidableEq, Repr

/-- The text of the error reported by the halfedge expansion (line 414). -/
def halfedgeErrorText : String := "Edge quantities not correct for non-triangular meshes"

/-- The variables live across the loop over the halfedges of one face: the
locals `c0`, `c1` (declared without a value) and `iP`, the buffer `colorval`,
and the log of reported messages. -/
structure HalfedgeLoopState where
  c0 : Option ℚ
  c1 : Option ℚ
  iP : Nat
  colorval : List Vector3
  log : List Message

/-- The body of the loop over `f.adjacentHalfedges()` (lines 406-418). -/
def halfedgeStep (values : List ℚ) (next : Nat → Nat) (st : HalfedgeLoopState) (he : Nat) :
    Except Fault HalfedgeLoopState := do
  let c2 ← readAt values (next he)
  let colorval ←
    if st.iP ≥ 2 then do
      let a ← readLocal st.c0
      let b ← readLocal st.c1
      pure (st.colorval ++ [Vector3.mk a b c2, Vector3.mk a b c2, Vector3.mk a b c2])
    else pure st.colorval
  let log := if st.iP > 2 then st.log ++ [Message.error halfedgeErrorText] else st.log
  pure { c0 := st.c1, c1 := some c2, iP := st.iP + 1, colorval := colorval, log := log }

/-- The body of the loop over `parent->mesh->faces()` (lines 402-419): `c0`,
`c1` and `iP` are fresh for every face. -/
def halfedgeFaceBody (values : List ℚ) (next : Nat → Nat)
    (acc : List Vector3 × List Message) (f : List Nat) :
    Except Fault (List Vector3 × List Message) := do
  let st ← f.foldlM (halfedgeStep values next)
    { c0 := none, c1 := none, iP := 0, colorval := acc.1, log := acc.2 }
  pure (st.colorval, st.log)

/-- `SurfaceScalarHalfedgeQuantity::fillColorBuffers` (lines 399-425); the
second component is what `error` reported. -/
def SurfaceScalarHalfedgeQuantity.fillColorBuffers (q : SurfaceScalarHalfedgeQuantity)
    (parent : SurfaceMesh) : Except Fault (GLProgram Vector3 × List Message) := do
  let out ← parent.faces.foldlM (halfedgeFaceBody q.values parent.next) ([], [])
  pure ({ a_colorval := out.1, t_colormap := q.iColorMap }, out.2)

/-! ## Info panel and export -/

/-- `SurfaceScalarVertexQuantity::buildVertexInfoGUI` (lines 214-219): the
number that is printed. -/
def SurfaceScalarVertexQuantity.buildVertexInfoGUI (q : SurfaceScalarVertexQuantity)
    (vInd : Nat) : Except Fault ℚ :=
  readAt q.values vInd

/-- `SurfaceScalarFaceQuantity::buildFaceInfoGUI` (lines 272-277). -/
def SurfaceScalarFaceQuantity.buildFaceInfoGUI (q : SurfaceScalarFaceQuantity)
    (fInd : Nat) : Except Fault ℚ :=
  readAt q.values fInd

/-- `SurfaceScalarEdgeQuantity::buildEdgeInfoGUI` (lines 357-362). -/
def SurfaceScalarEdgeQuantity.buildEdgeInfoGUI (q : SurfaceScalarEdgeQuantity)
    (eInd : Nat) : Except Fault ℚ :=
  readAt q.values eInd

/-- `SurfaceScalarHalfedgeQuantity::buildInfoGUI` (lines 427-432). -/
def SurfaceScalarHalfedgeQuantity.buildInfoGUI (q : SurfaceScalarHalfedgeQuantity)
    (he : Nat) : Except Fault ℚ :=
  readAt q.values he

/-- `SurfaceScalarVertexQuantity::writeToFile` (lines 188-212): the override
throws. -/
def SurfaceScalarVertexQuantity.writeToFile (_q : SurfaceScalarVertexQuantity)
    (_filename : String) : Except Fault SurfaceScalarVertexQuantity :=
  throw (Fault.exception "not implemented")


/-! ## The user interface -/

/-- A scalar quantity with its dynamic type: an object of one of the four
derived classes. -/
inductive AnyScalarQuantity where
  | vertex (q : SurfaceScalarVertexQuantity)
  | face (q : SurfaceScalarFaceQuantity)
  | edge (q : SurfaceScalarEdgeQuantity)
  | halfedge (q : SurfaceScalarHalfedgeQuantity)

namespace AnyScalarQuantity

/-- The base-class part of the object. -/
def base : AnyScalarQuantity → SurfaceScalarQuantity
  | vertex q => q.toSurfaceScalarQuantity
  | face q => q.toSurfaceScalarQuantity
  | edge q => q.toSurfaceScalarQuantity
  | halfedge q => q.toSurfaceScalarQuantity

/-- The object with its base-class part replaced. -/
def setBase (b : SurfaceScalarQuantity) : AnyScalarQuantity → AnyScalarQuantity
  | vertex q => vertex { q with toSurfaceScalarQuantity := b }
  | face q => face { q with toSurfaceScalarQuantity := b }
  | edge q => edge { q with toSurfaceScalarQuantity := b }
  | halfedge q => halfedge { q with toSurfaceScalarQuantity := b }

/-- Modelled from the spec: `writeToFile` is a virtual member ("concrete variants
may override"; the class declarations are outside the sources).  The call
`writeToFile(filename)` on an object runs the override of
`SurfaceScalarVertexQuantity` (lines 188-212) for a vertex quantity and the
base implementation (lines 34-36), which the other three classes inherit, for
the rest. -/
def writeToFile (q : AnyScalarQuantity) (filename : String) (log : List Message) :
    Except Fault (AnyScalarQuantity × List Message) :=
  match q with
  | vertex v => do
      let v ← v.writeToFile filename
      pure (vertex v, log)
  | face _ => pure (q.setBase (q.base.writeToFile filename log).1,
      (q.base.writeToFile filename log).2)
  | edge _ => pure (q.setBase (q.base.writeToFile filename log).1,
      (q.base.writeToFile filename log).2)
  | halfedge _ => pure (q.setBase (q.base.writeToFile filename log).1,
      (q.base.writeToFile filename log).2)

end AnyScalarQuantity

/-- The quantities registered on one parent surface, each known by its index,
with the parts of the parent that `drawUI` touches: the active-quantity slot,
whether the render program exists, and the log of reported messages. -/
structure Scene where
  quantities : Nat → AnyScalarQuantity
  activeSurfaceQuantity : Option Nat
  program : Bool
  log : List Message

namespace Scene

/-- Replace quantity `i`. -/
def setQuantity (s : Scene) (i : Nat) (q : AnyScalarQuantity) : Scene :=
  { s with quantities := Function.update s.quantities i q }

/-- Replace the base-class part of quantity `i`. -/
def setBase (s : Scene) (i : Nat) (b : SurfaceScalarQuantity) : Scene :=
  s.setQuantity i ((s.quantities i).setBase b)

end Scene

/-- The slots of a triangulated face that hold an edge index, in slot order. -/
def validSlots (face : TriangulationFace) : List (Fin 3) :=
  (List.finRange 3).filter (fun i => face.edgeInds i ≠ INVALID_IND)

/-- The values of the edges in the valid slots of a face. -/
def validEdgeValues (values : List ℚ) (face : TriangulationFace) : List ℚ :=
  (validSlots face).map (fun i => values.getD (face.edgeInds i) 0)

/-- The sum of a list of `double`s as the program accumulates it: from `0.0`,
one addition per value, in order. -/
def sumDouble (vals : List ℚ) : FloatNum :=
  vals.foldl addDouble (FloatNum.finite 0)

/-- The mean of the values of the valid slots of a face in `double` arithmetic:
their sum, accumulated in slot order, divided by their number. -/
def meanOfValid (values : List ℚ) (face : TriangulationFace) : Option FloatNum :=
  divDouble (sumDouble (validEdgeValues values face))
    ((validEdgeValues values face).length : ℚ)

/-! ## Vocabulary of the halfedge expansion -/

/-- The values `values[next(h)]` along the halfedges of a face, in order. -/
def faceValues (values : List ℚ) (next : Nat → Nat) (f : List Nat) : List ℚ :=
  f.map (fun he => values.getD (next he) 0)

/-- Three copies of every window of three consecutive values, in order. -/
def cornerTriples : List ℚ → List Vector3
  | a :: b :: c :: rest =>
      [Vector3.mk a b c, Vector3.mk a b c, Vector3.mk a b c] ++ cornerTriples (b :: c :: rest)
  | _ => []

/-! ## Worked instances -/

/-- A quantity used in the worked instances below. -/
def sampleQuantity (dt : DataType) (lo hi : ℚ) : SurfaceScalarQuantity :=
  { name := "q", definedOn := "vertex", dataType := dt, iColorMap := defaultColorMap dt,
    dataRangeLow := lo, dataRangeHigh := hi, vizRangeLow := 7, vizRangeHigh := -7,
    enabled := false, hist := Histogram.empty }

/-- A stand-in for `robustMinMax` in the worked instances: the least and the
greatest value (`(0, 0)` for an empty vector), whatever the trim fraction. -/
def sampleMinMax (vals : List ℚ) (_trim : ℚ) : ℚ × ℚ :=
  (vals.foldl min (vals.headD 0), vals.foldl max (vals.headD 0))

/-- The only face of a single-triangle mesh: vertices and edges `0, 1, 2`. -/
def triangleFace : TriangulationFace :=
  { vertexInds := ![0, 1, 2], edgeInds := ![0, 1, 2], faceInd := 0 }

/-- A single-triangle mesh. -/
def triangleMesh : SurfaceMesh :=
  { nVertices := 3, nFaces := 1, nEdges := 3, nHalfedges := 3,
    vertexAreas := [1, 1, 1], faceAreas := [1], edgeLengths := [1, 1, 1],
    triangulation := [triangleFace], faces := [[0, 1, 2]], next := fun he => (he + 1) % 3 }

/-- Vertex values `[1, 2, 3]` on the single triangle. -/
def triangleVertexQuantity : SurfaceScalarVertexQuantity :=
  { toSurfaceScalarQuantity := sampleQuantity DataType.STANDARD 1 3, values := [1, 2, 3] }

/-- A triangulated face with edge values 4 and 6 in slots 0 and 1 and no edge
in slot 2. -/
def diagonalFace : TriangulationFace :=
  { vertexInds := ![0, 1, 2], edgeInds := ![0, 1, INVALID_IND], faceInd := 0 }

/-- A triangulated face without any edge. -/
def edgelessFace : TriangulationFace :=
  { vertexInds := ![0, 2, 3], edgeInds := ![INVALID_IND, INVALID_IND, INVALID_IND], faceInd := 0 }

/-- A mesh whose triangulation is an edgeless face followed by `diagonalFace`. -/
def diagonalMesh : SurfaceMesh :=
  { nVertices := 4, nFaces := 1, nEdges := 2, nHalfedges := 4,
    vertexAreas := [1, 1, 1, 1], faceAreas := [1], edgeLengths := [1, 1],
    triangulation := [edgelessFace, diagonalFace], faces := [[0, 1, 2, 3]],
    next := fun he => (he + 1) % 4 }

/-- Edge values `[4, 6]`. -/
def diagonalEdgeQuantity : SurfaceScalarEdgeQuantity :=
  { toSurfaceScalarQuantity := sampleQuantity DataType.STANDARD 4 6, values := [4, 6] }

/-- A mesh whose triangulation is `diagonalFace` alone. -/
def roundingMesh : SurfaceMesh :=
  { nVertices := 3, nFaces := 1, nEdges := 2, nHalfedges := 3,
    vertexAreas := [1, 1, 1], faceAreas := [1], edgeLengths := [1, 1],
    triangulation := [diagonalFace], faces := [[0, 1, 2]], next := fun he => (he + 1) % 3 }

/-- Edge values `[16777217, 1]`; the first is `2 ^ 24 + 1`, a `double` that is
not a `float`. -/
def roundingEdgeQuantity : SurfaceScalarEdgeQuantity :=
  { toSurfaceScalarQuantity := sampleQuantity DataType.STANDARD 1 16777217,
    values := [16777217, 1] }

/-- A quadrilateral face with halfedges `0, 1, 2, 3`. -/
def quadMesh : SurfaceMesh :=
  { nVertices := 4, nFaces := 1, nEdges := 4, nHalfedges := 4,
    vertexAreas := [1, 1, 1, 1], faceAreas := [1], edgeLengths := [1, 1, 1, 1],
    triangulation := [], faces := [[0, 1, 2, 3]], next := fun he => (he + 1) % 4 }

/-- Halfedge values `[10, 20, 30, 40]` held by a quantity on the quadrilateral. -/
def quadHalfedgeQuantity : SurfaceScalarHalfedgeQuantity :=
  { toSurfaceScalarQuantity := sampleQuantity DataType.STANDARD 10 40,
    values := [10, 20, 30, 40] }

/-- C1: whatever the prior visualization range, `resetVizRange` sets
`(vizRangeLow, vizRangeHigh)` to `(dataRangeLow, dataRangeHigh)` for STANDARD,
to `(-m, m)` with `m = max |dataRangeLow| |dataRangeHigh|` for SYMMETRIC, and to
`(0, dataRangeHigh)` for MAGNITUDE; two quantities that agree on `dataType` and
on the data range get the same visualization range. -/
theorem resetVizRange_spec (q : SurfaceScalarQuantity) :
    (q.dataType = DataType.STANDARD →
        q.resetVizRange.vizRangeLow = q.dataRangeLow ∧
        q.resetVizRange.vizRangeHigh = q.dataRangeHigh) ∧
    (q.dataType = DataType.SYMMETRIC →
        q.resetVizRange.vizRangeLow = -(max |q.dataRangeLow| |q.dataRangeHigh|) ∧
        q.resetVizRange.vizRangeHigh = max |q.dataRangeLow| |q.dataRangeHigh|) ∧
    (q.dataType = DataType.MAGNITUDE →
        q.resetVizRange.vizRangeLow = 0 ∧
        q.resetVizRange.vizRangeHigh = q.dataRangeHigh) ∧
    (∀ q2 : SurfaceScalarQuantity,
        q2.dataType = q.dataType → q2.dataRangeLow = q.dataRangeLow →
        q2.dataRangeHigh = q.dataRangeHigh →
        q2.resetVizRange.vizRangeLow = q.resetVizRange.vizRangeLow ∧
        q2.resetVizRange.vizRangeHigh = q.resetVizRange.vizRangeHigh) := by
  refine ⟨?_, ?_, ?_, ?_⟩
  · intro h
    simp [SurfaceScalarQuantity.resetVizRange, h]
  · intro h
    simp [SurfaceScalarQuantity.resetVizRange, h]
  · intro h
    simp [SurfaceScalarQuantity.resetVizRange, h]
  · intro q2 hd hl hh
    cases hq : q.dataType <;> rw [hq] at hd <;>
      simp [SurfaceScalarQuantity.resetVizRange, hq, hd, hl, hh]

/-- C1 at a SYMMETRIC quantity with data range `(-3, 2)` and prior range
`(7, -7)`: the reset range is `(-3, 3)`. -/
theorem resetVizRange_spec_witness :
    (sampleQuantity DataType.SYMMETRIC (-3) 2).dataType = DataType.SYMMETRIC ∧
    (sampleQuantity DataType.SYMMETRIC (-3) 2).resetVizRange.vizRangeLow = -3 ∧
    (sampleQuantity DataType.SYMMETRIC (-3) 2).resetVizRange.vizRangeHigh = 3 := by
  have h := (resetVizRange_spec (sampleQuantity DataType.SYMMETRIC (-3) 2)).2.1 rfl
  refine ⟨rfl, ?_, ?_⟩
  · rw [h.1]; norm_num [sampleQuantity]
  · rw [h.2]; norm_num [sampleQuantity]

/-- C2 as stated fails: a MAGNITUDE quantity with data range `(-5, -2)`, which
has `dataRangeLow ≤ dataRangeHigh`, is reset to `(0, -2)`. -/
theorem resetVizRange_magnitude_inverted :
    (sampleQuantity DataType.MAGNITUDE (-5) (-2)).dataRangeLow ≤
        (sampleQuantity DataType.MAGNITUDE (-5) (-2)).dataRangeHigh ∧
    ¬ ((sampleQuantity DataType.MAGNITUDE (-5) (-2)).resetVizRange.vizRangeLow ≤
        (sampleQuantity DataType.MAGNITUDE (-5) (-2)).resetVizRange.vizRangeHigh) := by
  constructor
  · norm_num [sampleQuantity]
  · norm_num [sampleQuantity, SurfaceScalarQuantity.resetVizRange]

/-- C2, amended: when `dataRangeLow ≤ dataRangeHigh`, and for MAGNITUDE also
`0 ≤ dataRangeHigh`, the state left by `resetVizRange` has
`vizRangeLow ≤ vizRangeHigh`. -/
theorem resetVizRange_ordered (q : SurfaceScalarQuantity)
    (hrange : q.dataRangeLow ≤ q.dataRangeHigh)
    (hmag : q.dataType = DataType.MAGNITUDE → 0 ≤ q.dataRangeHigh) :
    q.resetVizRange.vizRangeLow ≤ q.resetVizRange.vizRangeHigh := by
  cases hq : q.dataType
  · simpa [SurfaceScalarQuantity.resetVizRange, hq] using hrange
  · have h0 : (0 : ℚ) ≤ max |q.dataRangeLow| |q.dataRangeHigh| :=
      le_trans (abs_nonneg _) (le_max_left _ _)
    simp only [SurfaceScalarQuantity.resetVizRange, hq]
    linarith
  · simpa [SurfaceScalarQuantity.resetVizRange, hq] using hmag hq

/-- C2 (amended) at a MAGNITUDE quantity with data range `(1, 4)`. -/
theorem resetVizRange_ordered_witness :
    (sampleQuantity DataType.MAGNITUDE 1 4).resetVizRange.vizRangeLow ≤
      (sampleQuantity DataType.MAGNITUDE 1 4).resetVizRange.vizRangeHigh :=
  resetVizRange_ordered (sampleQuantity DataType.MAGNITUDE 1 4)
    (by norm_num [sampleQuantity]) (by intro _; norm_num [sampleQuantity])


/-! ## Auxiliary facts about the embedding -/

theorem except_ok_bind {ε α β : Type} (a : α) (f : α → Except ε β) :
    (Except.ok a >>= f) = f a := rfl

theorem except_error_bind {ε α β : Type} (e : ε) (f : α → Except ε β) :
    (Except.error e >>= f) = Except.error e := rfl

theorem except_pure {ε α : Type} (a : α) : (pure a : Except ε α) = Except.ok a := rfl

theorem finRange_three : List.finRange 3 = [0, 1, 2] := rfl

theorem readAt_of_lt (xs : List ℚ) (i : Nat) (h : i < xs.length) :
    readAt xs i = Except.ok (xs.get ⟨i, h⟩) := by
  unfold readAt
  rw [List.getElem?_eq_getElem h]
  rfl

theorem readAt_of_le (xs : List ℚ) (i : Nat) (h : xs.length ≤ i) :
    readAt xs i = Except.error Fault.undefinedBehaviour := by
  unfold readAt
  rw [List.getElem?_eq_none h]
  rfl

/-- Entry `k * t + i` of a concatenation of blocks of length `k` is entry `i` of
block `t`. -/
theorem getElem?_flatMap_block {α β : Type} (k : Nat) (f : α → List β) :
    ∀ (l : List α), (∀ a ∈ l, (f a).length = k) →
      ∀ (t : Nat) (ht : t < l.length) (i : Nat), i < k →
        (l.flatMap f)[k * t + i]? = (f (l.get ⟨t, ht⟩))[i]? := by
  intro l
  induction l with
  | nil => intro _ t ht; simp at ht
  | cons a l ih =>
    intro hlen t ht i hi
    have ha : (f a).length = k := hlen a (List.mem_cons_self _ _)
    cases t with
    | zero =>
      simp only [List.flatMap_cons, Nat.mul_zero, Nat.zero_add]
      rw [List.getElem?_append_left (by omega)]
      rfl
    | succ t =>
      simp only [List.flatMap_cons]
      rw [List.getElem?_append_right (by rw [ha, Nat.mul_succ]; omega)]
      have ht2 : t < l.length := by simpa using ht
      have hidx : k * (t + 1) + i - (f a).length = k * t + i := by
        rw [ha, Nat.mul_succ]; omega
      rw [hidx, ih (fun b hb => hlen b (List.mem_cons_of_mem _ hb)) t ht2 i hi]
      rfl

theorem length_flatMap_block {α β : Type} (k : Nat) (f : α → List β) :
    ∀ (l : List α), (∀ a ∈ l, (f a).length = k) → (l.flatMap f).length = k * l.length := by
  intro l
  induction l with
  | nil => intro _; simp
  | cons a l ih =>
    intro hlen
    simp only [List.flatMap_cons, List.length_append, List.length_cons]
    rw [hlen a (List.mem_cons_self _ _), ih (fun b hb => hlen b (List.mem_cons_of_mem _ hb)),
      Nat.mul_succ]
    omega

/-- A loop whose body appends a block computed from the element alone appends
the concatenation of the blocks. -/
theorem foldlM_append_blocks {α β : Type} (body : List β → α → Except Fault (List β))
    (block : α → List β) :
    ∀ (l : List α), (∀ a ∈ l, ∀ acc, body acc a = Except.ok (acc ++ block a)) →
      ∀ acc, l.foldlM body acc = Except.ok (acc ++ l.flatMap block) := by
  intro l
  induction l with
  | nil => intro _ acc; simp [List.foldlM, except_pure]
  | cons a l ih =>
    intro h acc
    rw [List.foldlM_cons, h a (List.mem_cons_self _ _) acc, except_ok_bind,
      ih (fun b hb => h b (List.mem_cons_of_mem _ hb))]
    simp [List.flatMap_cons, List.append_assoc]

/-! ## Export -/

/-- C7: for every filename, every quantity and every log, `writeToFile` of the
base class reports that writing is not implemented, as one warning added to the
log, and returns the quantity with every field (dataType, colormap index, data
range, visualization range, enabled flag, and the rest) unchanged. -/
theorem writeToFile_not_implemented (q : SurfaceScalarQuantity) (filename : String)
    (log : List Message) :
    (q.writeToFile filename log).1 = q ∧
    (q.writeToFile filename log).2 =
      log ++ [Message.warning "Writing to file not yet implemented for this datatype"] ∧
    (q.writeToFile filename log).1.dataType = q.dataType ∧
    (q.writeToFile filename log).1.iColorMap = q.iColorMap ∧
    (q.writeToFile filename log).1.dataRangeLow = q.dataRangeLow ∧
    (q.writeToFile filename log).1.dataRangeHigh = q.dataRangeHigh ∧
    (q.writeToFile filename log).1.vizRangeLow = q.vizRangeLow ∧
    (q.writeToFile filename log).1.vizRangeHigh = q.vizRangeHigh ∧
    (q.writeToFile filename log).1.enabled = q.enabled :=
  ⟨rfl, rfl, rfl, rfl, rfl, rfl, rfl, rfl, rfl⟩

/-! ## Vertex expansion -/

/-- The three values a face contributes in the vertex expansion. -/
theorem vertex_inner_loop (values : List ℚ) (face : TriangulationFace)
    (hb : ∀ i : Fin 3, face.vertexInds i < values.length) (colorval : List ℚ) :
    (List.finRange 3).foldlM
        (fun (colorval : List ℚ) (i : Fin 3) => do
          let vInd := face.vertexInds i
          let v ← readAt values vInd
          pure (colorval ++ [v]))
        colorval
      = Except.ok (colorval ++ (List.finRange 3).map
          (fun i => values.get ⟨face.vertexInds i, hb i⟩)) := by
  rw [finRange_three]
  simp only [List.foldlM_cons, List.foldlM_nil, readAt_of_lt _ _ (hb _), except_ok_bind,
    except_pure, List.map_cons, List.map_nil, List.append_assoc, List.cons_append,
    List.nil_append]

/-- C5: when every vertex index of the triangulation is below the length of the
value array, the vertex expansion returns a buffer of exactly
`3 * (number of triangulated faces)` entries, and entry `3 * t + i` is
`values[triangulation[t].vertexInds[i]]`. -/
theorem vertex_fillColorBuffers_spec (q : SurfaceScalarVertexQuantity) (parent : SurfaceMesh)
    (hb : ∀ face ∈ parent.triangulation, ∀ i : Fin 3, face.vertexInds i < q.values.length) :
    ∃ p, q.fillColorBuffers parent = Except.ok p ∧
      p.a_colorval.length = 3 * parent.triangulation.length ∧
      ∀ (t : Nat) (ht : t < parent.triangulation.length) (i : Fin 3),
        ∃ v, q.values[(parent.triangulation.get ⟨t, ht⟩).vertexInds i]? = some v ∧
          p.a_colorval[3 * t + i.val]? = some v := by
  classical
  let block : TriangulationFace → List ℚ := fun face =>
    (List.finRange 3).map (fun i => q.values.getD (face.vertexInds i) 0)
  have hblock : ∀ face ∈ parent.triangulation, ∀ acc : List ℚ,
      (List.finRange 3).foldlM
        (fun (colorval : List ℚ) (i : Fin 3) => do
          let vInd := face.vertexInds i
          let v ← readAt q.values vInd
          pure (colorval ++ [v]))
        acc = Except.ok (acc ++ block face) := by
    intro face hf acc
    rw [vertex_inner_loop q.values face (hb face hf) acc]
    congr 2
    apply List.map_congr_left
    intro i _
    simp [List.getD_eq_getElem?_getD, List.getElem?_eq_getElem (hb face hf i)]
  have hlen : ∀ face ∈ parent.triangulation, (block face).length = 3 := by
    intro face _; simp [block]
  refine ⟨{ a_colorval := parent.triangulation.flatMap block, t_colormap := q.iColorMap }, ?_, ?_, ?_⟩
  · unfold SurfaceScalarVertexQuantity.fillColorBuffers
    rw [foldlM_append_blocks _ block parent.triangulation hblock []]
    rfl
  · exact length_flatMap_block 3 block _ hlen
  · intro t ht i
    have hi := hb _ (List.get_mem parent.triangulation t ht) i
    refine ⟨q.values.get ⟨_, hi⟩, List.getElem?_eq_getElem hi, ?_⟩
    show (parent.triangulation.flatMap block)[3 * t + i.val]? = _
    rw [getElem?_flatMap_block 3 block _ hlen t ht i.val i.isLt]
    simp only [block]
    rw [List.getElem?_map]
    have : (List.finRange 3)[i.val]? = some i := by
      rw [finRange_three]; fin_cases i <;> rfl
    rw [this]
    have hi2 : (parent.triangulation[t]).vertexInds i < q.values.length := hi
    simp [List.getD_eq_getElem?_getD, List.getElem?_eq_getElem hi2]

/-- C5 on the single triangle `(0, 1, 2)` with values `[1, 2, 3]`: the buffer
is exactly `[1, 2, 3]`. -/
theorem vertex_fillColorBuffers_spec_witness :
    ∃ p, triangleVertexQuantity.fillColorBuffers triangleMesh = Except.ok p ∧
      p.a_colorval.length = 3 ∧ p.a_colorval = [1, 2, 3] := by
  have hb : ∀ face ∈ triangleMesh.triangulation, ∀ i : Fin 3,
      face.vertexInds i < triangleVertexQuantity.values.length := by
    intro face hf i
    have hface : face = triangleFace := by simpa [triangleMesh] using hf
    subst hface
    fin_cases i <;> simp [triangleFace, triangleVertexQuantity]
  obtain ⟨p, hp, hlen, _⟩ := vertex_fillColorBuffers_spec triangleVertexQuantity triangleMesh hb
  refine ⟨p, hp, hlen, ?_⟩
  have hrun : triangleVertexQuantity.fillColorBuffers triangleMesh =
      Except.ok { a_colorval := [1, 2, 3], t_colormap := 0 } := rfl
  rw [hrun] at hp
  injection hp with hp
  rw [← hp]

/-! ## Edge expansion -/

/-- The slot-wise description of the vector a face contributes. -/
theorem edgeCombineLoop_eq (values : List ℚ) (face : TriangulationFace)
    (avgVal : Option FloatNum)
    (hb : ∀ i : Fin 3, face.edgeInds i ≠ INVALID_IND → face.edgeInds i < values.length) :
    ∃ vec : Vec3, edgeCombineLoop values face avgVal = Except.ok vec ∧
      ∀ i : Fin 3, vec i =
        if face.edgeInds i = INVALID_IND then narrowToFloat avgVal
        else some (toFloat (values.getD (face.edgeInds i) 0)) := by
  have hstep : ∀ (cv : Vec3) (i : Fin 3),
      (if face.edgeInds i = INVALID_IND then
          (pure (Function.update cv i (narrowToFloat avgVal)) : Except Fault Vec3)
        else do
          let v ← readAt values (face.edgeInds i)
          pure (Function.update cv i (narrowToFloat (some (FloatNum.finite v)))))
      = Except.ok (Function.update cv i
          (if face.edgeInds i = INVALID_IND then narrowToFloat avgVal
            else some (toFloat (values.getD (face.edgeInds i) 0)))) := by
    intro cv i
    by_cases hi : face.edgeInds i = INVALID_IND
    · simp only [hi, if_true, except_pure]
    · simp only [hi, if_false, readAt_of_lt _ _ (hb i hi), except_ok_bind, except_pure,
        List.getD_eq_getElem?_getD, List.getElem?_eq_getElem (hb i hi)]
      rfl
  unfold edgeCombineLoop
  rw [finRange_three]
  simp only [List.foldlM_cons, List.foldlM_nil]
  simp only [hstep, except_ok_bind]
  refine ⟨_, rfl, ?_⟩
  intro i
  fin_cases i <;> simp [Function.update]

/-- The averaging loop returns the sum, accumulated in `double`, and the number
of the valid edge values. -/
theorem edgeAvgLoop_eq (values : List ℚ) (face : TriangulationFace)
    (hb : ∀ i : Fin 3, face.edgeInds i ≠ INVALID_IND → face.edgeInds i < values.length) :
    edgeAvgLoop values face =
      Except.ok (sumDouble (validEdgeValues values face),
        ((validEdgeValues values face).length : ℚ)) := by
  have hstep : ∀ (acc : FloatNum × ℚ) (i : Fin 3),
      (if face.edgeInds i ≠ INVALID_IND then do
          let v ← readAt values (face.edgeInds i)
          (pure (addDouble acc.1 v, acc.2 + 1) : Except Fault (FloatNum × ℚ))
        else pure acc)
      = Except.ok (if face.edgeInds i ≠ INVALID_IND then
          (addDouble acc.1 (values.getD (face.edgeInds i) 0), acc.2 + 1) else acc) := by
    intro acc i
    by_cases hi : face.edgeInds i = INVALID_IND
    · simp only [hi, ne_eq, not_true_eq_false, if_false, except_pure]
    · simp only [hi, ne_eq, not_false_eq_true, if_true, readAt_of_lt _ _ (hb i hi),
        except_ok_bind, except_pure, List.getD_eq_getElem?_getD,
        List.getElem?_eq_getElem (hb i hi)]
      rfl
  have hfold : ∀ acc : FloatNum × ℚ,
      ([0, 1, 2] : List (Fin 3)).foldlM
        (fun (acc : FloatNum × ℚ) (i : Fin 3) =>
          let eInd := face.edgeInds i
          if eInd ≠ INVALID_IND then do
            let v ← readAt values eInd
            pure (addDouble acc.1 v, acc.2 + 1)
          else pure acc) acc
      = Except.ok
          (let a0 := if face.edgeInds 0 ≠ INVALID_IND then
              (addDouble acc.1 (values.getD (face.edgeInds 0) 0), acc.2 + 1) else acc
           let a1 := if face.edgeInds 1 ≠ INVALID_IND then
              (addDouble a0.1 (values.getD (face.edgeInds 1) 0), a0.2 + 1) else a0
           if face.edgeInds 2 ≠ INVALID_IND then
              (addDouble a1.1 (values.getD (face.edgeInds 2) 0), a1.2 + 1) else a1) := by
    intro acc
    simp only [List.foldlM_cons, List.foldlM_nil]
    rw [hstep acc 0, except_ok_bind, hstep _ 1, except_ok_bind, hstep _ 2, except_ok_bind]
    rfl
  unfold edgeAvgLoop
  rw [finRange_three, hfold]
  congr 1
  by_cases h0 : face.edgeInds 0 = INVALID_IND <;>
  by_cases h1 : face.edgeInds 1 = INVALID_IND <;>
  by_cases h2 : face.edgeInds 2 = INVALID_IND <;>
  · simp [sumDouble, validEdgeValues, validSlots, finRange_three, List.filter, h0, h1, h2]
    try norm_num

/-- The vector that the body of the edge loop pushes three times. -/
theorem edgeFaceBody_eq (values : List ℚ) (face : TriangulationFace)
    (hb : ∀ i : Fin 3, face.edgeInds i ≠ INVALID_IND → face.edgeInds i < values.length)
    (colorval : List Vec3) :
    edgeFaceBody values colorval face =
      Except.ok (colorval ++ List.replicate 3
        (fun i : Fin 3 =>
          if face.edgeInds i = INVALID_IND then narrowToFloat (meanOfValid values face)
          else some (toFloat (values.getD (face.edgeInds i) 0)))) := by
  obtain ⟨vec, hvec, hcomp⟩ := edgeCombineLoop_eq values face (meanOfValid values face) hb
  have hfun : vec = fun i : Fin 3 =>
      if face.edgeInds i = INVALID_IND then narrowToFloat (meanOfValid values face)
      else some (toFloat (values.getD (face.edgeInds i) 0)) := funext hcomp
  unfold edgeFaceBody
  rw [edgeAvgLoop_eq values face hb, except_ok_bind]
  simp only []
  rw [show divDouble (sumDouble (validEdgeValues values face))
      ((validEdgeValues values face).length : ℚ) = meanOfValid values face from rfl]
  rw [hvec, except_ok_bind, except_pure, finRange_three, ← hfun]
  simp [List.replicate]

/-- The whole edge expansion as a concatenation of per-face blocks. -/
theorem edge_fillColorBuffers_eq (q : SurfaceScalarEdgeQuantity) (parent : SurfaceMesh)
    (hb : ∀ face ∈ parent.triangulation, ∀ i : Fin 3,
      face.edgeInds i ≠ INVALID_IND → face.edgeInds i < q.values.length) :
    q.fillColorBuffers parent =
      Except.ok { a_colorval := parent.triangulation.flatMap (fun face =>
                    List.replicate 3 (fun i : Fin 3 =>
                      if face.edgeInds i = INVALID_IND then
                        narrowToFloat (meanOfValid q.values face)
                      else some (toFloat (q.values.getD (face.edgeInds i) 0)))),
                  t_colormap := q.iColorMap } := by
  unfold SurfaceScalarEdgeQuantity.fillColorBuffers
  rw [foldlM_append_blocks (edgeFaceBody q.values) _ parent.triangulation
    (fun face hf acc => edgeFaceBody_eq q.values face (hb face hf) acc) []]
  rfl

/-- A face with a valid slot has a non-empty list of valid edge values. -/
theorem validEdgeValues_length_pos (values : List ℚ) (face : TriangulationFace)
    (h : ∃ i : Fin 3, face.edgeInds i ≠ INVALID_IND) :
    0 < (validEdgeValues values face).length := by
  obtain ⟨i, hi⟩ := h
  have hmem : i ∈ validSlots face := by
    simp [validSlots, hi]
  simpa [validEdgeValues] using List.length_pos_of_mem hmem

/-- A face without a valid slot has no valid edge values. -/
theorem validEdgeValues_eq_nil (values : List ℚ) (face : TriangulationFace)
    (h : ∀ i : Fin 3, face.edgeInds i = INVALID_IND) :
    validEdgeValues values face = [] := by
  simp [validEdgeValues, validSlots, h]

/-- A quotient by a number other than zero is a number. -/
theorem divDouble_isSome (a : FloatNum) (b : ℚ) (hb : b ≠ 0) : ∃ m, divDouble a b = some m := by
  cases a with
  | finite q => exact ⟨toDouble (q / b), by simp [divDouble, hb]⟩
  | infinite negative => exact ⟨_, rfl⟩

/-- The valid slots of `diagonalFace` are slots 0 and 1. -/
theorem validSlots_diagonalFace : validSlots diagonalFace = [0, 1] := by
  decide

/-- C3 as stated fails: with edge values `[16777217, 1]` in slots 0 and 1 and
slot 2 invalid, slot 0 is valid and `values[edgeInds[0]]` is `16777217`, yet the
three vectors of the face are `(16777216, 1, 8388609)`: the `double` is rounded
when it is stored in the `float` component. -/
theorem edge_component_rounded :
    diagonalFace.edgeInds 0 ≠ INVALID_IND ∧
    roundingEdgeQuantity.values[diagonalFace.edgeInds 0]? = some 16777217 ∧
    ∃ p, roundingEdgeQuantity.fillColorBuffers roundingMesh = Except.ok p ∧
      ∃ vec : Vec3, (∀ j : Nat, j < 3 → p.a_colorval[j]? = some vec) ∧
        vec 0 = some (FloatNum.finite 16777216) ∧
        vec 1 = some (FloatNum.finite 1) ∧
        vec 2 = some (FloatNum.finite 8388609) ∧
        vec 0 ≠ some (FloatNum.finite 16777217) := by
  have hb : ∀ face ∈ roundingMesh.triangulation, ∀ i : Fin 3,
      face.edgeInds i ≠ INVALID_IND → face.edgeInds i < roundingEdgeQuantity.values.length := by
    intro face hf i hi
    have hface : face = diagonalFace := by simpa [roundingMesh] using hf
    subst hface
    fin_cases i <;> simp [diagonalFace, roundingEdgeQuantity] at hi ⊢
  have hmean : meanOfValid roundingEdgeQuantity.values diagonalFace =
      some (FloatNum.finite 8388609) := by decide!
  have h0 : toFloat (roundingEdgeQuantity.values.getD (diagonalFace.edgeInds 0) 0) =
      FloatNum.finite 16777216 := by decide!
  have h1 : toFloat (roundingEdgeQuantity.values.getD (diagonalFace.edgeInds 1) 0) =
      FloatNum.finite 1 := by decide!
  have h8 : toFloat 8388609 = FloatNum.finite 8388609 := by decide!
  refine ⟨by decide, by decide, _,
    edge_fillColorBuffers_eq roundingEdgeQuantity roundingMesh hb,
    fun i : Fin 3 =>
      if diagonalFace.edgeInds i = INVALID_IND then
        narrowToFloat (meanOfValid roundingEdgeQuantity.values diagonalFace)
      else some (toFloat (roundingEdgeQuantity.values.getD (diagonalFace.edgeInds i) 0)),
    ?_, ?_, ?_, ?_, ?_⟩
  · intro j hj
    interval_cases j <;> simp [roundingMesh, List.replicate]
  · simp only [show diagonalFace.edgeInds 0 ≠ INVALID_IND by decide, if_false, h0]
  · simp only [show diagonalFace.edgeInds 1 ≠ INVALID_IND by decide, if_false, h1]
  · simp only [show diagonalFace.edgeInds 2 = INVALID_IND by decide, if_true, hmean,
      narrowToFloat, h8]
  · simp only [show diagonalFace.edgeInds 0 ≠ INVALID_IND by decide, if_false, h0]
    decide

/-- C3, amended: when every valid edge slot of the triangulation indexes inside
the value array, the edge expansion returns a buffer with three vectors per
triangulated face, in triangulation order; for a face with at least one valid
slot the three vectors are one and the same vector, whose component `i` is
`values[edgeInds[i]]` rounded from `double` to `float` when slot `i` is valid,
and, when slot `i` is `INVALID_IND`, the mean of the values of the valid slots
of that face, computed in `double` arithmetic and then rounded to `float`. -/
theorem edge_fillColorBuffers_spec (q : SurfaceScalarEdgeQuantity) (parent : SurfaceMesh)
    (hb : ∀ face ∈ parent.triangulation, ∀ i : Fin 3,
      face.edgeInds i ≠ INVALID_IND → face.edgeInds i < q.values.length) :
    ∃ p, q.fillColorBuffers parent = Except.ok p ∧
      p.a_colorval.length = 3 * parent.triangulation.length ∧
      ∀ (t : Nat) (ht : t < parent.triangulation.length),
        (∃ i : Fin 3, (parent.triangulation.get ⟨t, ht⟩).edgeInds i ≠ INVALID_IND) →
        ∃ vec : Vec3,
          (∀ j : Nat, j < 3 → p.a_colorval[3 * t + j]? = some vec) ∧
          ∀ i : Fin 3,
            ((parent.triangulation.get ⟨t, ht⟩).edgeInds i ≠ INVALID_IND →
              ∃ v, q.values[(parent.triangulation.get ⟨t, ht⟩).edgeInds i]? = some v ∧
                vec i = some (toFloat v)) ∧
            ((parent.triangulation.get ⟨t, ht⟩).edgeInds i = INVALID_IND →
              ∃ m, meanOfValid q.values (parent.triangulation.get ⟨t, ht⟩) = some m ∧
                vec i = narrowToFloat (some m)) := by
  let block : TriangulationFace → List Vec3 := fun face =>
    List.replicate 3 (fun i : Fin 3 =>
      if face.edgeInds i = INVALID_IND then narrowToFloat (meanOfValid q.values face)
      else some (toFloat (q.values.getD (face.edgeInds i) 0)))
  have hlen : ∀ face ∈ parent.triangulation, (block face).length = 3 := by
    intro face _; simp [block]
  refine ⟨_, edge_fillColorBuffers_eq q parent hb, ?_, ?_⟩
  · exact length_flatMap_block 3 block _ hlen
  · intro t ht hvalid
    have hmem := List.get_mem parent.triangulation t ht
    refine ⟨fun i : Fin 3 =>
      if (parent.triangulation.get ⟨t, ht⟩).edgeInds i = INVALID_IND then
        narrowToFloat (meanOfValid q.values (parent.triangulation.get ⟨t, ht⟩))
      else some (toFloat (q.values.getD ((parent.triangulation.get ⟨t, ht⟩).edgeInds i) 0)),
      ?_, ?_⟩
    · intro j hj
      show (parent.triangulation.flatMap block)[3 * t + j]? = _
      rw [getElem?_flatMap_block 3 block _ hlen t ht j hj]
      simp only [block]
      rw [List.getElem?_replicate]
      simp only [hj, if_true]
    · intro i
      constructor
      · intro hi
        have hlt := hb _ hmem i hi
        refine ⟨q.values.get ⟨_, hlt⟩, List.getElem?_eq_getElem hlt, ?_⟩
        have hi2 : ¬ (parent.triangulation[t]).edgeInds i = INVALID_IND := hi
        have hlt2 : (parent.triangulation[t]).edgeInds i < q.values.length := hlt
        simp only [List.get_eq_getElem, hi2, if_false, List.getD_eq_getElem?_getD,
          List.getElem?_eq_getElem hlt2, Option.getD_some]
      · intro hi
        have hpos := validEdgeValues_length_pos q.values _ hvalid
        have hne : ((validEdgeValues q.values (parent.triangulation.get ⟨t, ht⟩)).length : ℚ)
            ≠ 0 := by
          exact_mod_cast Nat.pos_iff_ne_zero.mp hpos
        obtain ⟨m, hm⟩ := divDouble_isSome
          (sumDouble (validEdgeValues q.values (parent.triangulation.get ⟨t, ht⟩))) _ hne
        refine ⟨m, hm, ?_⟩
        simp only [hi, if_true]
        rw [show meanOfValid q.values (parent.triangulation.get ⟨t, ht⟩) = some m from hm]

/-- C3 (amended) on a triangulation of an edgeless face followed by a face with
edge values 4 and 6 and one invalid slot: six vectors, and the three of the
second face are `(4, 6, 5)`. -/
theorem edge_fillColorBuffers_spec_witness :
    ∃ p, diagonalEdgeQuantity.fillColorBuffers diagonalMesh = Except.ok p ∧
      p.a_colorval.length = 6 ∧
      ∃ vec : Vec3, (∀ j : Nat, j < 3 → p.a_colorval[3 + j]? = some vec) ∧
        vec 0 = some (FloatNum.finite 4) ∧ vec 1 = some (FloatNum.finite 6) ∧
        vec 2 = some (FloatNum.finite 5) := by
  have hb : ∀ face ∈ diagonalMesh.triangulation, ∀ i : Fin 3,
      face.edgeInds i ≠ INVALID_IND → face.edgeInds i < diagonalEdgeQuantity.values.length := by
    intro face hf i hi
    have hface : face = edgelessFace ∨ face = diagonalFace := by
      simpa [diagonalMesh] using hf
    rcases hface with h | h <;> subst h <;> fin_cases i <;>
      simp [edgelessFace, diagonalFace, diagonalEdgeQuantity] at hi ⊢
  obtain ⟨p, hp, hlen, hfaces⟩ :=
    edge_fillColorBuffers_spec diagonalEdgeQuantity diagonalMesh hb
  have ht : 1 < diagonalMesh.triangulation.length := by simp [diagonalMesh]
  have hface : diagonalMesh.triangulation.get ⟨1, ht⟩ = diagonalFace := rfl
  have hvalid : ∃ i : Fin 3,
      (diagonalMesh.triangulation.get ⟨1, ht⟩).edgeInds i ≠ INVALID_IND := by
    rw [hface]; exact ⟨0, by decide⟩
  obtain ⟨vec, hvec, hcomp⟩ := hfaces 1 ht hvalid
  rw [hface] at hcomp
  have hmean : meanOfValid diagonalEdgeQuantity.values diagonalFace =
      some (FloatNum.finite 5) := by decide!
  refine ⟨p, hp, by simpa [diagonalMesh] using hlen, vec, ?_, ?_, ?_, ?_⟩
  · intro j hj
    simpa using hvec j hj
  · obtain ⟨v, hv, hvec0⟩ := (hcomp 0).1 (by decide)
    have : v = 4 := by
      simpa [diagonalFace, diagonalEdgeQuantity] using hv.symm
    rw [hvec0, this]
    have h4 : toFloat 4 = FloatNum.finite 4 := by decide!
    rw [h4]
  · obtain ⟨v, hv, hvec1⟩ := (hcomp 1).1 (by decide)
    have : v = 6 := by
      simpa [diagonalFace, diagonalEdgeQuantity] using hv.symm
    rw [hvec1, this]
    have h6 : toFloat 6 = FloatNum.finite 6 := by decide!
    rw [h6]
  · obtain ⟨m, hm, hvec2⟩ := (hcomp 2).2 (by decide)
    rw [hmean] at hm
    have h5 : toFloat 5 = FloatNum.finite 5 := by decide!
    rw [hvec2, ← hm, narrowToFloat, h5]

/-- C10: for a face whose valid edge slots index inside the value array, the
averaging loop of the edge expansion ends with `avgValCount` equal to the number
of slots that are not `INVALID_IND`; the count is non-zero when the face has a
valid slot; when all three slots are `INVALID_IND` the count is zero, the
quotient `avgVal / avgValCount` has no value, and every component of the three
vectors the face contributes is without a value. -/
theorem edge_avgValCount_spec (values : List ℚ) (face : TriangulationFace)
    (hb : ∀ i : Fin 3, face.edgeInds i ≠ INVALID_IND → face.edgeInds i < values.length) :
    ∃ (avgVal : FloatNum) (avgValCount : ℚ),
      edgeAvgLoop values face = Except.ok (avgVal, avgValCount) ∧
      avgValCount = ((validSlots face).length : ℚ) ∧
      ((∃ i : Fin 3, face.edgeInds i ≠ INVALID_IND) → avgValCount ≠ 0) ∧
      ((∀ i : Fin 3, face.edgeInds i = INVALID_IND) →
        avgValCount = 0 ∧ divDouble avgVal avgValCount = none ∧
        ∀ colorval : List Vec3,
          edgeFaceBody values colorval face =
            Except.ok (colorval ++
              List.replicate 3 (fun _ : Fin 3 => (none : Option FloatNum)))) := by
  refine ⟨sumDouble (validEdgeValues values face), ((validEdgeValues values face).length : ℚ),
    edgeAvgLoop_eq values face hb, ?_, ?_, ?_⟩
  · simp [validEdgeValues]
  · intro hvalid
    exact_mod_cast Nat.pos_iff_ne_zero.mp (validEdgeValues_length_pos values face hvalid)
  · intro hall
    have hnil := validEdgeValues_eq_nil values face hall
    have hmean : meanOfValid values face = none := by
      simp [meanOfValid, hnil, sumDouble, divDouble]
    refine ⟨by simp [hnil], by simpa [meanOfValid] using hmean, ?_⟩
    intro colorval
    rw [edgeFaceBody_eq values face hb colorval]
    congr 3
    funext i
    simp [hall i, hmean, narrowToFloat]

/-- C10 on a face whose three slots are `INVALID_IND`: the count is zero and the
three vectors have no component with a value. -/
theorem edge_avgValCount_spec_witness :
    ∃ (avgVal : FloatNum) (avgValCount : ℚ),
      edgeAvgLoop [4, 6] edgelessFace = Except.ok (avgVal, avgValCount) ∧
      avgValCount = 0 ∧ divDouble avgVal avgValCount = none ∧
      edgeFaceBody [4, 6] [] edgelessFace =
        Except.ok (List.replicate 3 (fun _ : Fin 3 => (none : Option FloatNum))) := by
  have hall : ∀ i : Fin 3, edgelessFace.edgeInds i = INVALID_IND := by decide
  have hb : ∀ i : Fin 3, edgelessFace.edgeInds i ≠ INVALID_IND →
      edgelessFace.edgeInds i < ([4, 6] : List ℚ).length :=
    fun i hi => absurd (hall i) hi
  obtain ⟨avgVal, avgValCount, hrun, _, _, hzero⟩ :=
    edge_avgValCount_spec [4, 6] edgelessFace hb
  obtain ⟨h0, hdiv, hbody⟩ := hzero hall
  exact ⟨avgVal, avgValCount, hrun, h0, hdiv, by simpa using hbody []⟩

/-! ## Halfedge expansion -/

theorem cornerTriples_length : ∀ vs : List ℚ, (cornerTriples vs).length = 3 * (vs.length - 2)
  | [] => rfl
  | [_] => rfl
  | [_, _] => rfl
  | a :: b :: c :: rest => by
    have ih := cornerTriples_length (b :: c :: rest)
    simp only [cornerTriples, List.length_append, List.length_cons, List.length_nil] at ih ⊢
    omega

theorem cornerTriples_getElem? : ∀ (m : Nat) (vs : List ℚ) (a b c : ℚ),
    vs[m]? = some a → vs[m + 1]? = some b → vs[m + 2]? = some c →
    ∀ j : Nat, j < 3 → (cornerTriples vs)[3 * m + j]? = some (Vector3.mk a b c) := by
  intro m
  induction m with
  | zero =>
    intro vs a b c ha hb hc j hj
    match vs, ha, hb, hc with
    | x :: y :: z :: rest, ha, hb, hc =>
      simp only [List.getElem?_cons_zero, List.getElem?_cons_succ, Option.some.injEq] at ha hb hc
      subst ha hb hc
      simp only [cornerTriples, Nat.mul_zero, Nat.zero_add]
      interval_cases j <;> simp
  | succ m ih =>
    intro vs a b c ha hb hc j hj
    match vs, ha, hb, hc with
    | [], ha, _, _ => simp at ha
    | [_], ha, _, _ => simp at ha
    | [_, _], _, _, hc => simp at hc
    | x :: y :: z :: rest, ha, hb, hc =>
      have ha2 : (y :: z :: rest)[m]? = some a := by simpa using ha
      have hb2 : (y :: z :: rest)[m + 1]? = some b := by simpa using hb
      have hc2 : (y :: z :: rest)[m + 2]? = some c := by simpa using hc
      have := ih (y :: z :: rest) a b c ha2 hb2 hc2 j hj
      simp only [cornerTriples]
      rw [List.getElem?_append_right (by simp; omega)]
      have hidx : 3 * (m + 1) + j -
          [Vector3.mk x y z, Vector3.mk x y z, Vector3.mk x y z].length = 3 * m + j := by
        simp; omega
      rw [hidx]
      exact this

/-- The loop over the halfedges of a face once `c0` and `c1` hold values. -/
theorem halfedge_loop_steady (values : List ℚ) (next : Nat → Nat) :
    ∀ (hes : List Nat), (∀ he ∈ hes, next he < values.length) →
      ∀ (st : HalfedgeLoopState) (a b : ℚ), st.c0 = some a → st.c1 = some b → 2 ≤ st.iP →
        ∃ st2, hes.foldlM (halfedgeStep values next) st = Except.ok st2 ∧
          st2.colorval = st.colorval ++ cornerTriples (a :: b :: faceValues values next hes) ∧
          st2.log = st.log ++ List.replicate (if 2 < st.iP then hes.length else hes.length - 1)
            (Message.error halfedgeErrorText) := by
  intro hes
  induction hes with
  | nil =>
    intro _ st a b _ _ _
    exact ⟨st, rfl, by simp [faceValues, cornerTriples], by simp⟩
  | cons he rest ih =>
    intro hb st a b h0 h1 hiP
    have hlt : next he < values.length := hb he (List.mem_cons_self _ _)
    have hval : values.getD (next he) 0 = values.get ⟨next he, hlt⟩ := by
      simp [List.getD_eq_getElem?_getD, List.getElem?_eq_getElem hlt]
    have hstep : halfedgeStep values next st he = Except.ok
        { c0 := some b, c1 := some (values.getD (next he) 0), iP := st.iP + 1,
          colorval := st.colorval ++ [Vector3.mk a b (values.getD (next he) 0),
            Vector3.mk a b (values.getD (next he) 0), Vector3.mk a b (values.getD (next he) 0)],
          log := if st.iP > 2 then st.log ++ [Message.error halfedgeErrorText] else st.log } := by
      unfold halfedgeStep
      rw [readAt_of_lt _ _ hlt, except_ok_bind]
      simp only [ge_iff_le, hiP, if_true, h0, h1, readLocal, except_pure, except_ok_bind, hval]
    obtain ⟨st2, hrun, hcol, hlog⟩ := ih (fun x hx => hb x (List.mem_cons_of_mem _ hx))
      { c0 := some b, c1 := some (values.getD (next he) 0), iP := st.iP + 1,
        colorval := st.colorval ++ [Vector3.mk a b (values.getD (next he) 0),
          Vector3.mk a b (values.getD (next he) 0), Vector3.mk a b (values.getD (next he) 0)],
        log := if st.iP > 2 then st.log ++ [Message.error halfedgeErrorText] else st.log }
      b (values.getD (next he) 0) rfl rfl (by show 2 ≤ st.iP + 1; omega)
    refine ⟨st2, ?_, ?_, ?_⟩
    · rw [List.foldlM_cons, hstep, except_ok_bind, hrun]
    · rw [hcol]
      simp [faceValues, cornerTriples]
    · rw [hlog]
      have h3 : 2 < st.iP + 1 := by omega
      simp only [h3, if_true, List.length_cons]
      by_cases h2 : 2 < st.iP
      · simp only [gt_iff_lt, h2, if_true, List.append_assoc, List.singleton_append,
          List.replicate_succ]
      · simp only [gt_iff_lt, h2, if_false, Nat.add_sub_cancel]

/-- The body of the loop while fewer than two halfedges have been seen. -/
theorem halfedgeStep_early (values : List ℚ) (next : Nat → Nat) (st : HalfedgeLoopState)
    (he : Nat) (hlt : next he < values.length) (hiP : st.iP < 2) :
    halfedgeStep values next st he = Except.ok
      { c0 := st.c1, c1 := some (values.getD (next he) 0), iP := st.iP + 1,
        colorval := st.colorval, log := st.log } := by
  have hval : values.getD (next he) 0 = values.get ⟨next he, hlt⟩ := by
    simp [List.getD_eq_getElem?_getD, List.getElem?_eq_getElem hlt]
  have h1 : ¬ st.iP ≥ 2 := by omega
  have h2 : ¬ st.iP > 2 := by omega
  unfold halfedgeStep
  rw [readAt_of_lt _ _ hlt, except_ok_bind]
  simp only [h1, h2, if_false, except_pure, except_ok_bind, hval]

/-- What one face adds to the buffer and to the log. -/
theorem halfedgeFaceBody_eq (values : List ℚ) (next : Nat → Nat) (f : List Nat)
    (hb : ∀ he ∈ f, next he < values.length) (acc : List Vector3 × List Message) :
    halfedgeFaceBody values next acc f =
      Except.ok (acc.1 ++ cornerTriples (faceValues values next f),
        acc.2 ++ List.replicate (f.length - 3) (Message.error halfedgeErrorText)) := by
  unfold halfedgeFaceBody
  match f, hb with
  | [], _ => simp [faceValues, cornerTriples, except_pure, except_ok_bind]
  | [h1], hb =>
    rw [List.foldlM_cons, halfedgeStep_early values next _ h1 (hb h1 (by simp)) (by show 0 < 2; omega),
      except_ok_bind]
    simp [faceValues, cornerTriples, except_pure, except_ok_bind]
  | [h1, h2], hb =>
    rw [List.foldlM_cons, halfedgeStep_early values next _ h1 (hb h1 (by simp)) (by show 0 < 2; omega),
      except_ok_bind,
      List.foldlM_cons, halfedgeStep_early values next _ h2 (hb h2 (by simp)) (by show 0 + 1 < 2; omega),
      except_ok_bind]
    simp [faceValues, cornerTriples, except_pure, except_ok_bind]
  | h1 :: h2 :: h3 :: rest, hb =>
    rw [List.foldlM_cons, halfedgeStep_early values next _ h1 (hb h1 (by simp)) (by show 0 < 2; omega),
      except_ok_bind,
      List.foldlM_cons, halfedgeStep_early values next _ h2 (hb h2 (by simp)) (by show 0 + 1 < 2; omega),
      except_ok_bind]
    obtain ⟨st2, hrun, hcol, hlog⟩ := halfedge_loop_steady values next (h3 :: rest)
      (fun x hx => hb x (by simp only [List.mem_cons] at hx ⊢; tauto))
      { c0 := some (values.getD (next h1) 0), c1 := some (values.getD (next h2) 0), iP := 0 + 1 + 1,
        colorval := acc.1, log := acc.2 }
      (values.getD (next h1) 0) (values.getD (next h2) 0) rfl rfl (by show 2 ≤ 0 + 1 + 1; omega)
    rw [hrun, except_ok_bind, except_pure, hcol, hlog]
    simp [faceValues]

/-- C4: when `next(h)` indexes inside the value array for every halfedge `h`
of every face, the halfedge expansion returns the concatenation, in face order,
of what each face contributes.  A face with halfedges `h1..hn` and
`v_k = values[next(h_k)]` contributes three copies of `(v_(k-2), v_(k-1), v_k)`
for `k = 3..n` in order (entry `3 * m + j` is the window that starts at the
`m`-th value, counting from zero), nothing when `n < 3`, and an error report
exactly when `n > 3`; a triangular face contributes three copies of
`(v1, v2, v3)` and no report. -/
theorem halfedge_fillColorBuffers_spec (q : SurfaceScalarHalfedgeQuantity) (parent : SurfaceMesh)
    (hb : ∀ f ∈ parent.faces, ∀ he ∈ f, parent.next he < q.values.length) :
    ∃ (contribution : List Nat → List Vector3) (reports : List Nat → List Message),
      q.fillColorBuffers parent =
        Except.ok ({ a_colorval := parent.faces.flatMap contribution, t_colormap := q.iColorMap },
          parent.faces.flatMap reports) ∧
      ∀ f ∈ parent.faces,
        (contribution f).length = 3 * (f.length - 2) ∧
        (∀ (m : Nat) (hm : m + 2 < f.length) (j : Nat), j < 3 →
          ∃ a b c : ℚ,
            q.values[parent.next (f.get ⟨m, by omega⟩)]? = some a ∧
            q.values[parent.next (f.get ⟨m + 1, by omega⟩)]? = some b ∧
            q.values[parent.next (f.get ⟨m + 2, hm⟩)]? = some c ∧
            (contribution f)[3 * m + j]? = some (Vector3.mk a b c)) ∧
        (f.length < 3 → contribution f = []) ∧
        (reports f ≠ [] ↔ 3 < f.length) ∧
        (∀ e ∈ reports f, e = Message.error halfedgeErrorText) ∧
        (∀ h1 h2 h3 : Nat, f = [h1, h2, h3] →
          ∃ a b c : ℚ,
            q.values[parent.next h1]? = some a ∧ q.values[parent.next h2]? = some b ∧
            q.values[parent.next h3]? = some c ∧
            contribution f = [Vector3.mk a b c, Vector3.mk a b c, Vector3.mk a b c] ∧
            reports f = []) := by
  have hfold : ∀ (faces : List (List Nat)),
      (∀ f ∈ faces, ∀ he ∈ f, parent.next he < q.values.length) →
      ∀ acc : List Vector3 × List Message,
        faces.foldlM (halfedgeFaceBody q.values parent.next) acc =
          Except.ok (acc.1 ++ faces.flatMap
              (fun f => cornerTriples (faceValues q.values parent.next f)),
            acc.2 ++ faces.flatMap
              (fun f => List.replicate (f.length - 3) (Message.error halfedgeErrorText))) := by
    intro faces
    induction faces with
    | nil => intro _ acc; simp [except_pure]
    | cons f rest ih =>
      intro h acc
      rw [List.foldlM_cons, halfedgeFaceBody_eq q.values parent.next f
        (h f (List.mem_cons_self _ _)) acc, except_ok_bind,
        ih (fun g hg => h g (List.mem_cons_of_mem _ hg))]
      simp [List.flatMap_cons, List.append_assoc]
  have hget : ∀ f ∈ parent.faces, ∀ (k : Nat) (hk : k < f.length),
      q.values[parent.next (f.get ⟨k, hk⟩)]? =
        some (q.values.getD (parent.next (f.get ⟨k, hk⟩)) 0) ∧
      (faceValues q.values parent.next f)[k]? =
        some (q.values.getD (parent.next (f.get ⟨k, hk⟩)) 0) := by
    intro f hf k hk
    have hlt : parent.next f[k] < q.values.length := hb f hf _ (List.get_mem f k hk)
    constructor
    · simp [List.getD_eq_getElem?_getD, List.getElem?_eq_getElem hlt]
    · simp [faceValues, List.getElem?_map, List.getElem?_eq_getElem hk]
  refine ⟨fun f => cornerTriples (faceValues q.values parent.next f),
    fun f => List.replicate (f.length - 3) (Message.error halfedgeErrorText), ?_, ?_⟩
  · unfold SurfaceScalarHalfedgeQuantity.fillColorBuffers
    rw [hfold parent.faces hb ([], []), except_ok_bind]
    simp [except_pure]
  · intro f hf
    refine ⟨?_, ?_, ?_, ?_, ?_, ?_⟩
    · simp [cornerTriples_length, faceValues]
    · intro m hm j hj
      obtain ⟨ha, ha2⟩ := hget f hf m (by omega)
      obtain ⟨hb1, hb2⟩ := hget f hf (m + 1) (by omega)
      obtain ⟨hc, hc2⟩ := hget f hf (m + 2) hm
      exact ⟨_, _, _, ha, hb1, hc, cornerTriples_getElem? m _ _ _ _ ha2 hb2 hc2 j hj⟩
    · intro hlen
      have := cornerTriples_length (faceValues q.values parent.next f)
      have hl : (faceValues q.values parent.next f).length = f.length := by simp [faceValues]
      apply List.eq_nil_of_length_eq_zero
      rw [this, hl]; omega
    · simp only [ne_eq, List.replicate_eq_nil_iff]
      omega
    · intro e he
      exact (List.eq_of_mem_replicate he)
    · intro h1 h2 h3 hf3
      subst hf3
      obtain ⟨ha, -⟩ := hget _ hf 0 (by simp)
      obtain ⟨hb1, -⟩ := hget _ hf 1 (by simp)
      obtain ⟨hc, -⟩ := hget _ hf 2 (by simp)
      exact ⟨_, _, _, ha, hb1, hc, by simp [faceValues, cornerTriples], by simp⟩

/-- C4 on a quadrilateral with `values[next(h_k)] = 20, 30, 40, 10`: three
copies of `(20, 30, 40)`, then three copies of `(30, 40, 10)`, and one error
report. -/
theorem halfedge_fillColorBuffers_spec_witness :
    (∀ f ∈ quadMesh.faces, ∀ he ∈ f, quadMesh.next he < quadHalfedgeQuantity.values.length) ∧
    (∃ (contribution : List Nat → List Vector3) (reports : List Nat → List Message),
      quadHalfedgeQuantity.fillColorBuffers quadMesh =
        Except.ok ({ a_colorval := quadMesh.faces.flatMap contribution,
                     t_colormap := quadHalfedgeQuantity.iColorMap },
          quadMesh.faces.flatMap reports) ∧
      (contribution [0, 1, 2, 3]).length = 6 ∧
      reports [0, 1, 2, 3] ≠ []) ∧
    quadHalfedgeQuantity.fillColorBuffers quadMesh =
      Except.ok ({ a_colorval := [Vector3.mk 20 30 40, Vector3.mk 20 30 40, Vector3.mk 20 30 40,
                                  Vector3.mk 30 40 10, Vector3.mk 30 40 10, Vector3.mk 30 40 10],
                   t_colormap := 0 },
        [Message.error halfedgeErrorText]) := by
  have hb : ∀ f ∈ quadMesh.faces, ∀ he ∈ f,
      quadMesh.next he < quadHalfedgeQuantity.values.length := by decide
  refine ⟨hb, ?_, rfl⟩
  obtain ⟨contribution, reports, hrun, hfaces⟩ :=
    halfedge_fillColorBuffers_spec quadHalfedgeQuantity quadMesh hb
  have hmem : [0, 1, 2, 3] ∈ quadMesh.faces := by simp [quadMesh]
  obtain ⟨hlen, _, _, herr, _, _⟩ := hfaces [0, 1, 2, 3] hmem
  exact ⟨contribution, reports, hrun, by simpa using hlen, herr.mpr (by decide)⟩

/-! ## Construction -/

/-- One more round of the collecting loop. -/
theorem collectLoop_succ (n : Nat) (values weights : List ℚ) :
    collectLoop (n + 1) values weights =
      (collectLoop n values weights >>= fun acc => do
        let v ← readAt values n
        let w ← readAt weights n
        pure (acc.1 ++ [v], acc.2 ++ [w])) := by
  unfold collectLoop
  rw [List.range_succ, List.foldlM_append]
  congr 1
  funext acc
  simp only [List.foldlM_cons, List.foldlM_nil, bind_pure]

/-- With enough values and weights the collecting loop returns the first `n` of
each. -/
theorem collectLoop_of_le (values weights : List ℚ) :
    ∀ n : Nat, n ≤ values.length → n ≤ weights.length →
      collectLoop n values weights = Except.ok (values.take n, weights.take n) := by
  intro n
  induction n with
  | zero => intro _ _; rfl
  | succ n ih =>
    intro hv hw
    rw [collectLoop_succ, ih (by omega) (by omega), except_ok_bind,
      readAt_of_lt values n (by omega), except_ok_bind,
      readAt_of_lt weights n (by omega), except_ok_bind, except_pure]
    simp only [List.take_succ, List.getElem?_eq_getElem (show n < values.length by omega),
      List.getElem?_eq_getElem (show n < weights.length by omega), Option.toList,
      List.get_eq_getElem]

/-- The collecting loop never ends in an exception. -/
theorem collectLoop_no_exception (values weights : List ℚ) (what : String) :
    ∀ n : Nat, collectLoop n values weights ≠ Except.error (Fault.exception what) := by
  intro n
  induction n with
  | zero => intro h; cases h
  | succ n ih =>
    rw [collectLoop_succ]
    cases hrun : collectLoop n values weights with
    | error e =>
      rw [except_error_bind]
      rw [hrun] at ih
      exact ih
    | ok acc =>
      rw [except_ok_bind]
      unfold readAt
      cases values[n]? <;> cases weights[n]? <;> intro h <;> cases h

/-- When a vector is too short the collecting loop reads outside it. -/
theorem collectLoop_of_lt (values weights : List ℚ) (n : Nat) (h : values.length < n) :
    collectLoop n values weights = Except.error Fault.undefinedBehaviour := by
  induction n with
  | zero => omega
  | succ n ih =>
    rw [collectLoop_succ]
    cases hrun : collectLoop n values weights with
    | error e =>
      rw [except_error_bind]
      by_cases hn : values.length < n
      · rw [ih hn] at hrun
        rw [hrun]
      · cases e with
        | undefinedBehaviour => rfl
        | exception what => exact absurd hrun (collectLoop_no_exception values weights what n)
    | ok acc =>
      rw [except_ok_bind, readAt_of_le values n (by omega), except_error_bind]

/-- `resetVizRange` touches nothing but the visualization range. -/
theorem resetVizRange_hist (q : SurfaceScalarQuantity) : q.resetVizRange.hist = q.hist := by
  unfold SurfaceScalarQuantity.resetVizRange
  cases q.dataType <;> rfl

/-- The histogram of a new quantity holds the collected vectors. -/
theorem initScalarQuantity_hist (robustMinMax : List ℚ → ℚ → ℚ × ℚ) (name definedOn : String)
    (dataType : DataType) (valsVec weightsVec : List ℚ) :
    (initScalarQuantity robustMinMax name definedOn dataType valsVec weightsVec).hist.vals = valsVec ∧
    (initScalarQuantity robustMinMax name definedOn dataType valsVec weightsVec).hist.weights =
      weightsVec := by
  unfold initScalarQuantity
  simp only [resetVizRange_hist]
  exact ⟨rfl, rfl⟩

/-- C6 as stated fails: a vertex quantity constructed from four values on a
mesh with three vertices is produced, without any error, and holds the four
values. -/
theorem vertex_construct_accepts_longer_array :
    ([1, 2, 3, 4] : List ℚ).length ≠ triangleMesh.nVertices ∧
    ∃ q, SurfaceScalarVertexQuantity.construct sampleMinMax "u" [1, 2, 3, 4] triangleMesh
          DataType.STANDARD = Except.ok q ∧
      q.values = [1, 2, 3, 4] ∧ q.hist.vals = [1, 2, 3] :=
  ⟨by decide, _, rfl, rfl, rfl⟩

/-- The vertex constructor as one bind. -/
theorem vertex_construct_def (robustMinMax : List ℚ → ℚ → ℚ × ℚ) (name : String)
    (values_ : List ℚ) (mesh_ : SurfaceMesh) (dataType_ : DataType) :
    SurfaceScalarVertexQuantity.construct robustMinMax name values_ mesh_ dataType_ =
      (collectLoop mesh_.nVertices values_ mesh_.vertexAreas >>= fun vecs =>
        Except.ok { toSurfaceScalarQuantity :=
                      initScalarQuantity robustMinMax name "vertex" dataType_ vecs.1 vecs.2,
                    values := values_ }) := rfl

/-- The face constructor as one bind. -/
theorem face_construct_def (robustMinMax : List ℚ → ℚ → ℚ × ℚ) (name : String)
    (values_ : List ℚ) (mesh_ : SurfaceMesh) (dataType_ : DataType) :
    SurfaceScalarFaceQuantity.construct robustMinMax name values_ mesh_ dataType_ =
      (collectLoop mesh_.nFaces values_ mesh_.faceAreas >>= fun vecs =>
        Except.ok { toSurfaceScalarQuantity :=
                      initScalarQuantity robustMinMax name "face" dataType_ vecs.1 vecs.2,
                    values := values_ }) := rfl

/-- The edge constructor as one bind. -/
theorem edge_construct_def (robustMinMax : List ℚ → ℚ → ℚ × ℚ) (name : String)
    (values_ : List ℚ) (mesh_ : SurfaceMesh) (dataType_ : DataType) :
    SurfaceScalarEdgeQuantity.construct robustMinMax name values_ mesh_ dataType_ =
      (collectLoop mesh_.nEdges values_ mesh_.edgeLengths >>= fun vecs =>
        Except.ok { toSurfaceScalarQuantity :=
                      initScalarQuantity robustMinMax name "edge" dataType_ vecs.1 vecs.2,
                    values := values_ }) := rfl

/-- The halfedge constructor as one bind: the loop reads the empty member. -/
theorem halfedge_construct_def (robustMinMax : List ℚ → ℚ → ℚ × ℚ) (name : String)
    (values_ : List ℚ) (mesh_ : SurfaceMesh) (dataType_ : DataType) :
    SurfaceScalarHalfedgeQuantity.construct robustMinMax name values_ mesh_ dataType_ =
      (collectLoop mesh_.nHalfedges [] mesh_.edgeLengths >>= fun vecs =>
        Except.ok { toSurfaceScalarQuantity :=
                      initScalarQuantity robustMinMax name "halfedge" dataType_ vecs.1 vecs.2,
                    values := [] }) := rfl

/-- A bind that ends in `ok` ends in an exception only if its first part does. -/
theorem bind_ok_no_exception {α β : Type} (x : Except Fault α) (f : α → β) (what : String)
    (hx : x ≠ Except.error (Fault.exception what)) :
    (x >>= fun a => Except.ok (f a)) ≠ Except.error (Fault.exception what) := by
  cases x with
  | error e =>
    rw [except_error_bind]
    intro h
    apply hx
    cases h
    rfl
  | ok a => rw [except_ok_bind]; intro h; cases h

/-- C6, amended: the Vertex, Face and Edge constructors check no length and
never throw.  Given at least as many values and weights as the parent has
elements of the kind, each produces a quantity that holds the whole supplied
array and whose histogram received the first `n` values and weights; given
fewer values, each reads outside the array, which is undefined behaviour and not
an error returned to the caller. -/
theorem construct_unchecked (robustMinMax : List ℚ → ℚ → ℚ × ℚ) (name : String)
    (values_ : List ℚ) (mesh_ : SurfaceMesh) (dataType_ : DataType) :
    (mesh_.nVertices ≤ values_.length → mesh_.nVertices ≤ mesh_.vertexAreas.length →
      ∃ q, SurfaceScalarVertexQuantity.construct robustMinMax name values_ mesh_ dataType_ =
          Except.ok q ∧
        q.values = values_ ∧ q.hist.vals = values_.take mesh_.nVertices ∧
        q.hist.weights = mesh_.vertexAreas.take mesh_.nVertices) ∧
    (mesh_.nFaces ≤ values_.length → mesh_.nFaces ≤ mesh_.faceAreas.length →
      ∃ q, SurfaceScalarFaceQuantity.construct robustMinMax name values_ mesh_ dataType_ =
          Except.ok q ∧
        q.values = values_ ∧ q.hist.vals = values_.take mesh_.nFaces ∧
        q.hist.weights = mesh_.faceAreas.take mesh_.nFaces) ∧
    (mesh_.nEdges ≤ values_.length → mesh_.nEdges ≤ mesh_.edgeLengths.length →
      ∃ q, SurfaceScalarEdgeQuantity.construct robustMinMax name values_ mesh_ dataType_ =
          Except.ok q ∧
        q.values = values_ ∧ q.hist.vals = values_.take mesh_.nEdges ∧
        q.hist.weights = mesh_.edgeLengths.take mesh_.nEdges) ∧
    (values_.length < mesh_.nVertices →
      SurfaceScalarVertexQuantity.construct robustMinMax name values_ mesh_ dataType_ =
        Except.error Fault.undefinedBehaviour) ∧
    (values_.length < mesh_.nFaces →
      SurfaceScalarFaceQuantity.construct robustMinMax name values_ mesh_ dataType_ =
        Except.error Fault.undefinedBehaviour) ∧
    (values_.length < mesh_.nEdges →
      SurfaceScalarEdgeQuantity.construct robustMinMax name values_ mesh_ dataType_ =
        Except.error Fault.undefinedBehaviour) ∧
    (∀ what : String,
      SurfaceScalarVertexQuantity.construct robustMinMax name values_ mesh_ dataType_ ≠
        Except.error (Fault.exception what) ∧
      SurfaceScalarFaceQuantity.construct robustMinMax name values_ mesh_ dataType_ ≠
        Except.error (Fault.exception what) ∧
      SurfaceScalarEdgeQuantity.construct robustMinMax name values_ mesh_ dataType_ ≠
        Except.error (Fault.exception what)) := by
  refine ⟨?_, ?_, ?_, ?_, ?_, ?_, ?_⟩
  · intro hv hw
    rw [vertex_construct_def, collectLoop_of_le _ _ _ hv hw, except_ok_bind]
    exact ⟨_, rfl, rfl, initScalarQuantity_hist _ _ _ _ _ _⟩
  · intro hv hw
    rw [face_construct_def, collectLoop_of_le _ _ _ hv hw, except_ok_bind]
    exact ⟨_, rfl, rfl, initScalarQuantity_hist _ _ _ _ _ _⟩
  · intro hv hw
    rw [edge_construct_def, collectLoop_of_le _ _ _ hv hw, except_ok_bind]
    exact ⟨_, rfl, rfl, initScalarQuantity_hist _ _ _ _ _ _⟩
  · intro h
    rw [vertex_construct_def, collectLoop_of_lt _ _ _ h, except_error_bind]
  · intro h
    rw [face_construct_def, collectLoop_of_lt _ _ _ h, except_error_bind]
  · intro h
    rw [edge_construct_def, collectLoop_of_lt _ _ _ h, except_error_bind]
  · intro what
    refine ⟨?_, ?_, ?_⟩
    · rw [vertex_construct_def]
      exact bind_ok_no_exception _ _ what (collectLoop_no_exception _ _ what _)
    · rw [face_construct_def]
      exact bind_ok_no_exception _ _ what (collectLoop_no_exception _ _ what _)
    · rw [edge_construct_def]
      exact bind_ok_no_exception _ _ what (collectLoop_no_exception _ _ what _)

/-- C6 (amended) on the single triangle: five edge values for three edges are
accepted and kept whole. -/
theorem construct_unchecked_witness :
    triangleMesh.nEdges ≤ ([5, 6, 7, 8, 9] : List ℚ).length ∧
    triangleMesh.nEdges ≤ triangleMesh.edgeLengths.length ∧
    ∃ q, SurfaceScalarEdgeQuantity.construct sampleMinMax "e" [5, 6, 7, 8, 9] triangleMesh
          DataType.MAGNITUDE = Except.ok q ∧
      q.values = [5, 6, 7, 8, 9] ∧
      q.hist.vals = ([5, 6, 7, 8, 9] : List ℚ).take triangleMesh.nEdges ∧
      q.hist.weights = triangleMesh.edgeLengths.take triangleMesh.nEdges :=
  ⟨by decide, by decide,
    (construct_unchecked sampleMinMax "e" [5, 6, 7, 8, 9] triangleMesh DataType.MAGNITUDE).2.2.1
      (by decide) (by decide)⟩

/-- With at least one halfedge the halfedge constructor reads outside its own,
empty, member `values`, whatever array was supplied. -/
theorem halfedge_construct_of_pos (robustMinMax : List ℚ → ℚ → ℚ × ℚ) (name : String)
    (values_ : List ℚ) (mesh_ : SurfaceMesh) (dataType_ : DataType) (h : 0 < mesh_.nHalfedges) :
    SurfaceScalarHalfedgeQuantity.construct robustMinMax name values_ mesh_ dataType_ =
      Except.error Fault.undefinedBehaviour := by
  rw [halfedge_construct_def, collectLoop_of_lt _ _ _ (by simpa using h), except_error_bind]

/-- C8 at three halfedge values on the single triangle (three halfedges, three
edge lengths): the halfedge constructor reads `values[0]` of its empty member
and produces no quantity, while the edge constructor on the same input holds
the supplied values and feeds them, with their weights, to the histogram. -/
theorem halfedge_construct_drops_values :
    ([1, 2, 3] : List ℚ).length = triangleMesh.nHalfedges ∧
    SurfaceScalarHalfedgeQuantity.construct sampleMinMax "h" [1, 2, 3] triangleMesh
      DataType.STANDARD = Except.error Fault.undefinedBehaviour ∧
    ∃ q, SurfaceScalarEdgeQuantity.construct sampleMinMax "h" [1, 2, 3] triangleMesh
          DataType.STANDARD = Except.ok q ∧
      q.values = [1, 2, 3] ∧ q.hist.vals = [1, 2, 3] ∧ q.hist.weights = [1, 1, 1] :=
  ⟨rfl, rfl, _, rfl, rfl, rfl, rfl⟩

/-! ## Exclusivity of enabled quantities -/

end polyscope
